import Mathlib

/-!
Verification development for the recipe-manager ingestion scripts.

The definitions below are a shallow embedding of the Python sources:
  * `src/scripts/ingest-serious-eats-top50.py`   (structured extractor pipeline)
  * `src/scripts/ingest-lidia-bastianich.py`     (heuristic extractor pipeline)
  * `src/scripts/extract-foodandwine-chef-urls.py` (URL discovery / pagination)

Conventions of the embedding:
  * Python strings are Lean `String`; `needle in haystack` is `strIn`,
    `str.lower()` is `lowerStr`, `str.strip()` is `pyStrip`,
    `len` is `String.length` (both count unicode code points).
  * Network effects are modelled by an oracle mapping the attempt / page
    number to the outcome the Python call would have produced there.
  * `time.sleep` calls are recorded as data (lists of waited durations /
    wait events) instead of elapsing real time.
  * Timestamps and freshly minted uuids are omitted from the records: no
    claim below depends on them and they are the only non-deterministic
    fields of the originals.
-/

/-! ### Basic string helpers (Python `in`, `lower`, `strip`) -/

/-- `listStartsWith p s` : the char list `p` is an initial segment of `s`. -/
def listStartsWith : List Char → List Char → Bool
  | [], _ => true
  | _ :: _, [] => false
  | a :: as, b :: bs => a == b && listStartsWith as bs

/-- `listContainsSub p s` : the char list `p` occurs contiguously in `s`
(Python `p in s` on strings; the empty pattern occurs in everything). -/
def listContainsSub (p : List Char) : List Char → Bool
  | [] => p.isEmpty
  | c :: rest => listStartsWith p (c :: rest) || listContainsSub p rest

/-- Python `needle in hay` for strings. -/
def strIn (needle hay : String) : Bool :=
  listContainsSub needle.data hay.data

/-- Python `s.lower()` (the sources only feed it ASCII). -/
def lowerStr (s : String) : String :=
  ⟨s.data.map Char.toLower⟩

/-- The whitespace set of Python `str.strip()`. -/
def isPySpace (c : Char) : Bool :=
  c == ' ' || c == '\t' || c == '\n' || c == '\r' || c == '\x0b' || c == '\x0c'

/-- Python `s.strip()`. -/
def pyStrip (s : String) : String :=
  ⟨((s.data.dropWhile isPySpace).reverse.dropWhile isPySpace).reverse⟩

/-- First-seen-order deduplication, accumulator holding the already kept
elements (Python `if x not in acc: acc.append(x)` and `dict.fromkeys`). -/
def dedupAux (seen : List String) : List String → List String
  | [] => []
  | x :: rest =>
    if seen.contains x then dedupAux seen rest
    else x :: dedupAux (x :: seen) rest

/-- Python `list(dict.fromkeys(xs))`: drop duplicates, keep first-seen order. -/
def dedupKeepFirst (xs : List String) : List String :=
  dedupAux [] xs

/-! ### Configuration constants (identical in both ingest scripts) -/

def MAX_RETRIES : Nat := 3
def RETRY_BACKOFF : Nat := 2
def RATE_LIMIT_SECONDS : Nat := 2

/-! ### Retry logic of `scrape_recipe` in ingest-serious-eats-top50.py

A call to `scrape_me(url)` plus the field extraction inside the `try`
block either produces a raw record or raises an exception carrying a
message string.  The oracle `outcomes` gives, for each (1-indexed)
attempt number, what that body would have done. -/

namespace SeriousEats

/-- Outcome of one attempt of the `try` body of `scrape_recipe`:
either a scraped raw record or a raised exception's message string. -/
inductive Outcome (α : Type) where
  | ok (record : α)
  | exn (msg : String)

/-- Line 168: `"404" in error_msg or "Not Found" in error_msg` — the
substring test that classifies an exception as permanent. -/
def permanentMsg (msg : String) : Bool :=
  strIn "404" msg || strIn "Not Found" msg

/-- Result of a `scrape_recipe` call: the returned value (`None` on
failure), the list of backoff sleeps performed (in seconds, in order),
and the number of attempts executed.  Because Python performs no
tail-call elimination, each retry (`return scrape_recipe(url, metadata,
attempt + 1)`, line 178) adds one nested stack frame, so `attempts` is
also the call-stack depth consumed by the retry logic. -/
structure ScrapeResult (α : Type) where
  result : Option α
  waits : List Nat
  attempts : Nat
deriving DecidableEq, Repr

/-- Lines 135–182 of ingest-serious-eats-top50.py, with the recursion
re-expressed structurally on `rem = MAX_RETRIES - attempt` (the guard
`attempt < MAX_RETRIES` on line 173 holds exactly when `rem > 0`, and the
recursive call at `attempt + 1` has remainder `rem - 1`). -/
def scrape_recipe_go (outcomes : Nat → Outcome α) : Nat → Nat → ScrapeResult α
  | attempt, rem =>
    match outcomes attempt with
    | .ok r => ⟨some r, [], 1⟩
    | .exn msg =>
      if permanentMsg msg then
        ⟨none, [], 1⟩
      else
        match rem with
        | rem' + 1 =>
          let wait_time := RETRY_BACKOFF ^ attempt
          let rest := scrape_recipe_go outcomes (attempt + 1) rem'
          ⟨rest.result, wait_time :: rest.waits, rest.attempts + 1⟩
        | 0 => ⟨none, [], 1⟩

/-- `scrape_recipe(url, metadata, attempt)`; `main` calls it with the
default `attempt = 1`. -/
def scrape_recipe (outcomes : Nat → Outcome α) (attempt : Nat := 1) :
    ScrapeResult α :=
  scrape_recipe_go outcomes attempt (MAX_RETRIES - attempt)

end SeriousEats

/-! ### Heuristic parser of ingest-lidia-bastianich.py

The BeautifulSoup queries performed by `scrape_recipe` (lines 186–251)
are modelled by a `LidiaPage` holding, for each query the code performs,
the text it returns on the page at hand. -/

namespace Lidia

/-- The results of the soup queries of `scrape_recipe`:
  * `h1` — `soup.find('h1').text` (`none` when no `h1` exists);
  * `servesH3` — text of `soup.find('h3', string=~/Serves/i)`;
  * `ingredientsH2` — whether an `h2` matching `/Ingredients/i` exists;
  * `ingredientsList` — the (unstripped) `li` texts of the first
    `ul`/`ol` following that `h2` (`none` when no list follows);
  * `directionsH2` — whether an `h2` matching `/Directions/i` exists;
  * `recipeTextDiv` — the (unstripped) `p` texts inside the first
    `div.recipe-text` following that `h2` (`none` when no such div);
  * `notesH2` / `notesContent` — likewise for the Notes heading;
  * `imgs` — per `img` tag, `img.get('src') or img.get('data-src', '')`. -/
structure LidiaPage where
  h1 : Option String
  servesH3 : Option String
  ingredientsH2 : Bool
  ingredientsList : Option (List String)
  directionsH2 : Bool
  recipeTextDiv : Option (List String)
  notesH2 : Bool
  notesContent : Option String
  imgs : List String
deriving DecidableEq, Repr

/-- Line 226: the boilerplate markers excluded from instruction text. -/
def skip_patterns : List String :=
  ["facebook", "twitter", "pinterest", "email", "copyright",
   "excerpted from", "all rights reserved"]

/-- Lines 223–228: the paragraph loop that accumulates
`instruction_parts`.  A paragraph survives when its stripped text is
truthy, contains no skip pattern (checked on the lowercased text), and
`len(text) > 20`. -/
def instruction_parts (paragraphs : List String) : List String :=
  paragraphs.foldl
    (fun acc p =>
      let text := pyStrip p
      if !(text == "") &&
         !(skip_patterns.any fun pat => strIn pat (lowerStr text)) &&
         decide (20 < text.length) then
        acc ++ [text]
      else acc)
    []

/-- Line 230: `"\n\n".join(instruction_parts)`. -/
def joined_instructions (paragraphs : List String) : String :=
  String.intercalate "\n\n" (instruction_parts paragraphs)

/-- Line 249: keep an `img` source when it is truthy, mentions an
uploads path, and mentions none of logo/icon/button. -/
def img_keep (src : String) : Bool :=
  !(src == "") &&
  (["upload", "wp-content/uploads"].any fun w => strIn w (lowerStr src)) &&
  !(["logo", "icon", "button"].any fun w => strIn w (lowerStr src))

/-- Lines 244–251: the image loop (filter plus first-seen dedup against
the accumulated `image_urls`). -/
def image_url_loop (acc : List String) : List String → List String
  | [] => acc
  | src :: rest =>
    if img_keep src && !(acc.contains src) then
      image_url_loop (acc ++ [src]) rest
    else
      image_url_loop acc rest

/-- The raw record built on lines 254–266 (the `scraped_at` timestamp is
omitted; `author` and `cuisine` are the constants of those lines). -/
structure RawRecipe where
  url : String
  title : String
  author : String
  description : Option String
  servings_text : Option String
  ingredients : List String
  instructions : String
  notes : Option String
  images : List String
  cuisine : String
deriving DecidableEq, Repr

/-- Lines 188–269: the extraction performed on a 200-status page.
Returns `none` exactly when the stripped `h1` text is missing or empty
(lines 189–194). -/
def parse_page (url : String) (page : LidiaPage) : Option RawRecipe :=
  match page.h1 with
  | none => none
  | some t =>
    let title := pyStrip t
    if title == "" then none
    else
      let servings_text := page.servesH3.map pyStrip
      let ingredients :=
        if page.ingredientsH2 then
          match page.ingredientsList with
          | some lis => (lis.map pyStrip).filter (fun s => !(s == ""))
          | none => []
        else []
      let instructions_text :=
        if page.directionsH2 then
          match page.recipeTextDiv with
          | some ps => joined_instructions ps
          | none => ""
        else ""
      let notes :=
        if page.notesH2 then page.notesContent.map pyStrip else none
      some
        { url := url
          title := title
          author := "Lidia Bastianich"
          description := notes
          servings_text := servings_text
          ingredients := ingredients
          instructions := instructions_text
          notes := notes
          images := image_url_loop [] page.imgs
          cuisine := "Italian" }

/-- One attempt of the `try` body of `scrape_recipe` (lines 177–269):
either `requests.get` returned a response with a status code and a page,
or some call raised an exception with a message. -/
inductive Fetch where
  | resp (status : Nat) (page : LidiaPage)
  | exn (msg : String)

/-- Lines 177–284 of ingest-lidia-bastianich.py, recursion expressed
structurally on `rem = MAX_RETRIES - attempt` exactly as for the
serious-eats variant (guard `attempt < MAX_RETRIES` on line 275 is
`rem > 0`).  A non-200 status returns `None` at once (lines 182–184); a
missing title returns `None` at once (lines 192–194); only a raised
exception is retried, with backoff `RETRY_BACKOFF ** attempt`. -/
def scrape_recipe_go (fetches : Nat → Fetch) (url : String) :
    Nat → Nat → SeriousEats.ScrapeResult RawRecipe
  | attempt, rem =>
    match fetches attempt with
    | .resp status page =>
      if status ≠ 200 then ⟨none, [], 1⟩
      else
        match parse_page url page with
        | none => ⟨none, [], 1⟩
        | some raw => ⟨some raw, [], 1⟩
    | .exn _ =>
      match rem with
      | rem' + 1 =>
        let wait_time := RETRY_BACKOFF ^ attempt
        let rest := scrape_recipe_go fetches url (attempt + 1) rem'
        ⟨rest.result, wait_time :: rest.waits, rest.attempts + 1⟩
      | 0 => ⟨none, [], 1⟩

/-- `scrape_recipe(url, attempt)` with the caller's default `attempt = 1`. -/
def scrape_recipe (fetches : Nat → Fetch) (url : String)
    (attempt : Nat := 1) : SeriousEats.ScrapeResult RawRecipe :=
  scrape_recipe_go fetches url attempt (MAX_RETRIES - attempt)

end Lidia

/-! ### Normalization and validation -/

/-- `re.search(r'(\d+)', s)` then `int(...)`: value of the first maximal
digit run of the char list, `none` when no digit occurs. -/
def firstDigitRun : List Char → Option Nat
  | [] => none
  | c :: rest =>
    if c.isDigit then
      some (((c :: rest.takeWhile Char.isDigit).map Char.toNat).foldl
        (fun n d => n * 10 + (d - 48)) 0)
    else firstDigitRun rest

/-- `parse_servings` (both scripts, identical): `None`/falsy text gives
`none`, otherwise the first number in the text. -/
def parse_servings (servings_text : Option String) : Option Nat :=
  match servings_text with
  | none => none
  | some s => if s == "" then none else firstDigitRun s.data

lemma length_dropWhile_le (p : Char → Bool) (l : List Char) :
    (l.dropWhile p).length ≤ l.length := by
  induction l with
  | nil => simp
  | cons c rest ih =>
    rw [List.dropWhile]
    cases p c
    · simp
    · simp; omega

/-- One step of `re.sub(r'\s+', ' ', s)`: every maximal whitespace run
becomes a single space. -/
def collapseWs : List Char → List Char
  | [] => []
  | c :: rest =>
    if isPySpace c then ' ' :: collapseWs (rest.dropWhile isPySpace)
    else c :: collapseWs rest
termination_by l => l.length
decreasing_by
  · simpa using Nat.lt_succ_of_le (length_dropWhile_le isPySpace rest)
  · simp

/-- `parse_instructions` of ingest-serious-eats-top50.py (lines 110–120):
empty/falsy input gives `""`, otherwise whitespace runs are collapsed and
the result stripped. -/
def parse_instructions (instructions : String) : String :=
  if instructions == "" then ""
  else pyStrip ⟨collapseWs instructions.data⟩

namespace SeriousEats

/-- The raw dict built by `scrape_recipe` (lines 142–159).  The
`hasattr`-probed fields are `Option`s; `scraped_at` and the opaque
`ratings` passthrough are omitted (no claim depends on them). -/
structure RawRecipe where
  url : String
  md_author : Option String
  md_category : Option String
  md_notes : Option String
  title : String
  author : Option String
  description : Option String
  prep_time : Option Nat
  cook_time : Option Nat
  total_time : Option Nat
  yields : Option String
  ingredients : List String
  instructions : String
  image : Option String
  cuisine : Option String
  category : Option String
deriving DecidableEq, Repr

/-- Python truthiness of an optional string (`None` and `""` are falsy). -/
def optTruthy : Option String → Bool
  | none => false
  | some s => !(s == "")

/-- The transformed (database-ready) record of `transform_to_schema`
(lines 185–260), restricted to the fields that are derived from the raw
record; the freshly minted `id`, the timestamps, and the constant-valued
columns (`user_id = "system"`, flags, `None` placeholders) are omitted.
`ingredients`, `tags` and `images` are stored via `json.dumps` of these
lists in the source; since `json.loads (json.dumps l) = l`, they are
modelled as the lists themselves. -/
structure Transformed where
  name : String
  description : Option String
  ingredients : List String
  instructions : String
  prep_time : Option Nat
  cook_time : Option Nat
  servings : Option Nat
  cuisine : Option String
  tags : List String
  images : List String
  source : String
deriving DecidableEq, Repr

/-- Lines 196–204: build the tags list from the scraped category and the
metadata category, then dedup preserving order. -/
def build_tags (raw : RawRecipe) : List String :=
  let tags : List String := []
  let tags := match raw.category with
    | some c => if !(c == "") then tags ++ [c] else tags
    | none => tags
  let tags := match raw.md_category with
    | some c => if !(c == "") then tags ++ [c] else tags
    | none => tags
  dedupKeepFirst tags

/-- Lines 206–209: the single-image list. -/
def build_images (raw : RawRecipe) : List String :=
  match raw.image with
  | some i => if !(i == "") then [i] else []
  | none => []

/-- `transform_to_schema` (lines 185–260), on the modelled fields. -/
def transform_to_schema (raw : RawRecipe) : Transformed :=
  { name := raw.title
    description := raw.description
    ingredients := raw.ingredients
    instructions := parse_instructions raw.instructions
    prep_time := raw.prep_time
    cook_time := raw.cook_time
    servings := parse_servings raw.yields
    cuisine := raw.cuisine
    tags := build_tags raw
    images := build_images raw
    source := raw.url }

/-- `validate_recipe` (lines 263–303).  The `json.loads` of the
`ingredients` and `images` columns cannot fail on `transform_to_schema`
output (they are `json.dumps` of lists), so the `JSONDecodeError`
branches are unreachable and the decoded lists are the stored lists. -/
def validate_recipe (recipe : Transformed) : Bool × List String :=
  let issues : List String := []
  let issues := if recipe.name == "" then issues ++ ["Missing name"] else issues
  let issues := if recipe.ingredients.isEmpty then issues ++ ["No ingredients"] else issues
  let issues :=
    if recipe.instructions == "" then issues ++ ["No instructions"]
    else if recipe.instructions.length < 50 then
      issues ++ ["Instructions too short (< 50 chars)"]
    else issues
  let issues := if recipe.images.isEmpty then issues ++ ["No images"] else issues
  let issues := if recipe.source == "" then issues ++ ["Missing source URL"] else issues
  (issues.isEmpty, issues)

end SeriousEats

namespace Lidia

/-- The transformed record of `transform_to_schema` in
ingest-lidia-bastianich.py (lines 287–331), restricted to the fields
derived from the raw record (same conventions as the serious-eats
variant: `id`, timestamps and constant columns omitted, the
`json.dumps`-encoded lists modelled as lists). -/
structure Transformed where
  name : String
  description : Option String
  ingredients : List String
  instructions : String
  servings : Option Nat
  cuisine : String
  tags : List String
  images : List String
  source : String
deriving DecidableEq, Repr

/-- `transform_to_schema` (lines 287–331). -/
def transform_to_schema (raw : RawRecipe) : Transformed :=
  { name := raw.title
    description := raw.description
    ingredients := raw.ingredients
    instructions := raw.instructions
    servings := parse_servings raw.servings_text
    cuisine := "Italian"
    tags := ["Italian", "Lidia Bastianich"]
    images := raw.images
    source := raw.url }

/-- `validate_recipe` of ingest-lidia-bastianich.py (lines 334–368): as
the serious-eats validator but with a "Too few ingredients" rule below
three, no images rule, and the plain "Instructions too short" message. -/
def validate_recipe (recipe : Transformed) : Bool × List String :=
  let issues : List String := []
  let issues := if recipe.name == "" then issues ++ ["Missing name"] else issues
  let issues :=
    if recipe.ingredients.isEmpty then issues ++ ["No ingredients"]
    else if recipe.ingredients.length < 3 then
      issues ++ ["Too few ingredients (" ++ toString recipe.ingredients.length ++ ")"]
    else issues
  let issues :=
    if recipe.instructions == "" then issues ++ ["No instructions"]
    else if recipe.instructions.length < 50 then
      issues ++ ["Instructions too short"]
    else issues
  let issues := if recipe.source == "" then issues ++ ["Missing source URL"] else issues
  (issues.isEmpty, issues)

end Lidia

/-! ### The transform+validate stage of both `main` functions

Lines 374–393 (serious-eats) and 445–460 (lidia): every raw record is
transformed, validated, and appended to `transformed_recipes` in both
branches; on failure the issue list is attached inline under the
`_validation_issues` key and a summary entry is appended to
`validation_failures`. -/

/-- A persisted record of the transformed snapshot: the transformed
record plus the optional `_validation_issues` field (present exactly
when validation failed). -/
structure OutRecord (T : Type) where
  record : T
  validation_issues : Option (List String)
deriving DecidableEq, Repr

namespace SeriousEats

/-- The `for raw_data in raw_recipes` loop of `main`
(ingest-serious-eats-top50.py lines 374–393), accumulating
`(transformed_recipes, validation_failures)`. -/
def process_loop (raws : List RawRecipe) :
    List (OutRecord Transformed) × List (String × String × List String) :=
  raws.foldl
    (fun acc raw =>
      let transformed := transform_to_schema raw
      let v := validate_recipe transformed
      if v.1 then
        (acc.1 ++ [⟨transformed, none⟩], acc.2)
      else
        (acc.1 ++ [⟨transformed, some v.2⟩],
         acc.2 ++ [(transformed.name, transformed.source, v.2)]))
    ([], [])

end SeriousEats

namespace Lidia

/-- The `for raw_data in raw_recipes` loop of `main`
(ingest-lidia-bastianich.py lines 445–460). -/
def process_loop (raws : List RawRecipe) :
    List (OutRecord Transformed) × List (String × String × List String) :=
  raws.foldl
    (fun acc raw =>
      let transformed := transform_to_schema raw
      let v := validate_recipe transformed
      if v.1 then
        (acc.1 ++ [⟨transformed, none⟩], acc.2)
      else
        (acc.1 ++ [⟨transformed, some v.2⟩],
         acc.2 ++ [(transformed.name, transformed.source, v.2)]))
    ([], [])

end Lidia

/-! ### Exit status of the two `main` functions

The success rate (a Python float) is modelled with exact rationals:
`success_rate = success_count / total_count * 100 if total_count > 0
else 0`, where `success_count` counts the URLs whose scrape returned a
record and `total_count` is the number of attempted URLs. -/

/-- The per-URL fetch outcomes of a run, `true` for each URL whose
`scrape_recipe` returned data.  `success_rate` is lines 407–410 /
474–477 of the respective scripts. -/
def success_rate (results : List Bool) : ℚ :=
  let success_count : ℚ := results.count true
  let total_count : ℚ := results.length
  if results.length > 0 then success_count / total_count * 100 else 0

namespace SeriousEats

/-- How loading `serious-eats-top50-urls.json` went (lines 317–326):
absent file, malformed JSON, or a parsed URL list — modelled by the
fetch outcome of each of its entries. -/
inductive UrlsFile where
  | missing
  | malformed
  | loaded (results : List Bool)

/-- The exit status decided by `main` (lines 321–326 return 1 for an
absent or malformed URL file; lines 448–461 return 0 iff
`success_rate >= 90`). -/
def main_exit (file : UrlsFile) : Nat :=
  match file with
  | .missing => 1
  | .malformed => 1
  | .loaded results => if success_rate results ≥ 90 then 0 else 1

end SeriousEats

namespace Lidia

/-- The exit status decided by `main` of ingest-lidia-bastianich.py
(lines 514–527): 0 iff `success_rate >= 80`; with no discovered URLs the
rate is 0 (line 477) and the exit status 1. -/
def main_exit (results : List Bool) : Nat :=
  if success_rate results ≥ 80 then 0 else 1

end Lidia

/-! ### URL discovery pagination of extract-foodandwine-chef-urls.py -/

namespace FoodWine

/-- An `<a>` tag as the three `soup.find` pagination probes and the
`find_all('a', href=True)` link walk see it.  `href` values are the
already-resolved absolute URLs (`urljoin` against the chef page is the
identity on the absolute URLs the site serves). -/
structure Anchor where
  href : Option String
  rel : Option String
  text : Option String
  cls : Option String
deriving DecidableEq, Repr

/-- A listing page is its anchor tags. -/
structure Page where
  anchors : List Anchor
deriving DecidableEq, Repr

/-- Outcome of `requests.get` plus `raise_for_status` for one listing
page: a parsed page, or a raised `RequestException` (which covers
non-2xx statuses via `raise_for_status`). -/
inductive PageFetch where
  | ok (page : Page)
  | reqError (msg : String)

/-- Lines 75–77: a link is a recipe URL when it mentions `/recipes/` and
`foodandwine.com` and neither `/gallery/` nor `/collection/`. -/
def is_recipe_url (u : String) : Bool :=
  strIn "/recipes/" u && strIn "foodandwine.com" u &&
  !(strIn "/gallery/" u) && !(strIn "/collection/" u)

/-- Lines 66–81: collect the hrefs, filter to recipe URLs, dedup
preserving first-seen order. -/
def page_links (page : Page) : List String :=
  dedupKeepFirst ((page.anchors.filterMap Anchor.href).filter is_recipe_url)

/-- Lines 89–91: the next-page affordance — an anchor with
`rel="next"`, or one whose string is exactly `"Next"`, or one with a
CSS class containing `"next"` case-insensitively. -/
def has_next_page (page : Page) : Bool :=
  (page.anchors.any fun a => a.rel == some "next") ||
  (page.anchors.any fun a => a.text == some "Next") ||
  (page.anchors.any fun a =>
    match a.cls with
    | some c => strIn "next" (lowerStr c)
    | none => false)

/-- What a pagination walk did: the URLs accumulated, how many pages
were fetched, and how many rate-limit waits were slept. -/
structure WalkResult where
  urls : List String
  pagesFetched : Nat
  waitCount : Nat
deriving DecidableEq, Repr

/-- The `while page_num <= max_pages` loop of `extract_recipe_urls`
(lines 45–113), with the loop expressed structurally on the remaining
iteration budget `rem = max_pages + 1 - page_num` (the loop guard holds
exactly when `rem > 0`).  Per iteration: a fetch error breaks (lines
110–113); zero matching links breaks (lines 106–108); links but no
next-page affordance breaks — the `page_num == 1` case on lines 93–96
and the general case on lines 98–100 both break; otherwise a rate-limit
wait is slept (line 104) and the walk advances. -/
def extract_go (fetches : Nat → PageFetch) : Nat → Nat → List String → WalkResult
  | 0, _, acc => ⟨acc, 0, 0⟩
  | rem + 1, page_num, acc =>
    match fetches page_num with
    | .reqError _ => ⟨acc, 1, 0⟩
    | .ok page =>
      let recipe_links := page_links page
      if recipe_links.isEmpty then
        ⟨acc, 1, 0⟩
      else
        let acc := acc ++ recipe_links
        if !has_next_page page then
          ⟨acc, 1, 0⟩
        else
          let rest := extract_go fetches rem (page_num + 1) acc
          ⟨rest.urls, rest.pagesFetched + 1, rest.waitCount + 1⟩

/-- `extract_recipe_urls(chef_url, max_pages=10)`: run the walk from
page 1 and dedup the combined result (line 116). -/
def extract_recipe_urls (fetches : Nat → PageFetch) (max_pages : Nat := 10) :
    WalkResult :=
  let r := extract_go fetches max_pages 1 []
  ⟨dedupKeepFirst r.urls, r.pagesFetched, r.waitCount⟩

end FoodWine

/-! ### Rate-limiter invocations of the orchestrating loops

The `time.sleep(RATE_LIMIT_SECONDS)` calls of the item loops and of the
lidia discovery loop, recorded as events. -/

/-- An observable step of a run loop: a page/item fetch (with its
1-based index) or a rate-limit wait of the given duration. -/
inductive RunEvent where
  | pageFetch (i : Nat)
  | itemFetch (i : Nat)
  | rateWait (secs : Nat)
deriving DecidableEq, Repr

/-- The `for i, url in enumerate(recipe_urls, 1)` item loops of both
ingest scripts (serious-eats lines 336–357, lidia lines 415–428): each
iteration scrapes item `i`, then sleeps `RATE_LIMIT_SECONDS` only when
`i < len(recipe_urls)` — the wait is skipped after the last item. -/
def item_loop_events (n : Nat) : List RunEvent :=
  (List.range n).flatMap fun k =>
    let i := k + 1
    RunEvent.itemFetch i ::
      (if i < n then [RunEvent.rateWait RATE_LIMIT_SECONDS] else [])

/-- The discovery loop of ingest-lidia-bastianich.py (lines 386–392):
for each category page, fetch it (yielding some number of URLs), sleep
`RATE_LIMIT_SECONDS`, and break once the accumulated URL count reaches
the target.  `counts` lists the URL count per category page; the wait on
line 389 runs before the break test, so every fetched page — the last
included — is followed by a wait. -/
def discovery_events : List Nat → Nat → Nat → Nat → List RunEvent
  | [], _, _, _ => []
  | c :: rest, i, acc, target =>
    RunEvent.pageFetch i :: RunEvent.rateWait RATE_LIMIT_SECONDS ::
      (if acc + c ≥ target then []
       else discovery_events rest (i + 1) (acc + c) target)

/-- Count the rate-limit waits in an event trace. -/
def countWaits (events : List RunEvent) : Nat :=
  events.countP fun e =>
    match e with
    | RunEvent.rateWait _ => true
    | _ => false

/-- Count the page-fetch events in an event trace. -/
def countPageFetches (events : List RunEvent) : Nat :=
  events.countP fun e =>
    match e with
    | RunEvent.pageFetch _ => true
    | _ => false

/-! ### Shared helper lemmas -/

lemma se_go_attempts_bound {α : Type} (oc : Nat → SeriousEats.Outcome α) :
    ∀ (rem attempt : Nat),
      1 ≤ (SeriousEats.scrape_recipe_go oc attempt rem).attempts ∧
        (SeriousEats.scrape_recipe_go oc attempt rem).attempts ≤ rem + 1 := by
  intro rem
  induction rem with
  | zero =>
    intro attempt
    rw [SeriousEats.scrape_recipe_go]
    cases oc attempt with
    | ok r => simp
    | exn m =>
      by_cases hp : SeriousEats.permanentMsg m = true
      · simp [hp]
      · simp [hp]
  | succ rem2 ih =>
    intro attempt
    rw [SeriousEats.scrape_recipe_go]
    cases oc attempt with
    | ok r => simp
    | exn m =>
      by_cases hp : SeriousEats.permanentMsg m = true
      · simp [hp]
      · obtain ⟨hl, hr⟩ := ih (attempt + 1)
        simp [hp]
        omega

lemma lidia_go_attempts_bound (f : Nat → Lidia.Fetch) (url : String) :
    ∀ (rem attempt : Nat),
      1 ≤ (Lidia.scrape_recipe_go f url attempt rem).attempts ∧
        (Lidia.scrape_recipe_go f url attempt rem).attempts ≤ rem + 1 := by
  intro rem
  induction rem with
  | zero =>
    intro attempt
    rw [Lidia.scrape_recipe_go]
    cases f attempt with
    | resp status page =>
      by_cases hs : status ≠ 200
      · simp [hs]
      · simp [hs]
        cases Lidia.parse_page url page <;> simp
    | exn m => simp
  | succ rem2 ih =>
    intro attempt
    rw [Lidia.scrape_recipe_go]
    cases f attempt with
    | resp status page =>
      by_cases hs : status ≠ 200
      · simp [hs]
      · simp [hs]
        cases Lidia.parse_page url page <;> simp
    | exn m =>
      obtain ⟨hl, hr⟩ := ih (attempt + 1)
      simp
      omega

lemma foldl_out_fst {R T F : Type}
    (step : List (OutRecord T) × List F → R → List (OutRecord T) × List F)
    (g : R → OutRecord T) (hstep : ∀ acc raw, (step acc raw).1 = acc.1 ++ [g raw]) :
    ∀ (l : List R) (acc : List (OutRecord T) × List F),
      (l.foldl step acc).1 = acc.1 ++ l.map g := by
  intro l
  induction l with
  | nil => intro acc; simp
  | cons x xs ih =>
    intro acc
    rw [List.foldl_cons, List.map_cons, ih (step acc x)]
    rw [hstep acc x]
    simp

lemma foldl_filter_append {α β : Type} (g : α → β) (q : β → Bool) :
    ∀ (l : List α) (acc : List β),
      l.foldl (fun acc p => if q (g p) then acc ++ [g p] else acc) acc =
        acc ++ (l.map g).filter q := by
  intro l
  induction l with
  | nil => intro acc; simp
  | cons x xs ih =>
    intro acc
    rw [List.foldl_cons, List.map_cons, List.filter_cons]
    by_cases hq : q (g x)
    · rw [if_pos hq, if_pos hq, ih (acc ++ [g x])]
      simp
    · rw [if_neg hq, if_neg hq, ih acc]

lemma countWaits_append (a b : List RunEvent) :
    countWaits (a ++ b) = countWaits a + countWaits b := by
  simp [countWaits, List.countP_append]

lemma countWaits_flatMap (l : List Nat) (f : Nat → List RunEvent) :
    countWaits (l.flatMap f) = (l.map fun k => countWaits (f k)).sum := by
  induction l with
  | nil => simp [countWaits]
  | cons x xs ih => simp [List.flatMap_cons, countWaits_append, ih]

lemma fw_waits_le_pages (fetches : Nat → FoodWine.PageFetch) :
    ∀ (rem page_num : Nat) (acc : List String),
      (FoodWine.extract_go fetches rem page_num acc).waitCount + 1 =
          (FoodWine.extract_go fetches rem page_num acc).pagesFetched ∨
        (FoodWine.extract_go fetches rem page_num acc).waitCount =
          (FoodWine.extract_go fetches rem page_num acc).pagesFetched := by
  intro rem
  induction rem with
  | zero => intro page_num acc; rw [FoodWine.extract_go]; right; rfl
  | succ rem2 ih =>
    intro page_num acc
    rw [FoodWine.extract_go]
    cases fetches page_num with
    | reqError m => left; rfl
    | ok page =>
      by_cases he : (FoodWine.page_links page).isEmpty
      · simp [he]
      · simp only [he, Bool.false_eq_true, if_false, if_neg, not_false_iff]
        by_cases hn : FoodWine.has_next_page page
        · simp only [hn, Bool.not_true, Bool.false_eq_true, if_false, if_neg, not_false_iff]
          rcases ih (page_num + 1) (acc ++ FoodWine.page_links page) with h | h
          · left; simp; omega
          · right; simp; omega
        · simp [hn]

/-! ### Concrete fixtures used by witnesses and counterexamples -/

/-- A lidia page on which every soup query comes back empty. -/
def emptyLidiaPage : Lidia.LidiaPage :=
  ⟨none, none, false, none, false, none, false, none, []⟩

/-- A minimal lidia page carrying only a title. -/
def rigatoniPage : Lidia.LidiaPage :=
  ⟨some "Rigatoni", none, false, none, false, none, false, none, []⟩

/-- The raw record `parse_page` extracts from `rigatoniPage` at URL `"u"`. -/
def rigatoniRaw : Lidia.RawRecipe :=
  ⟨"u", "Rigatoni", "Lidia Bastianich", none, none, [], "", none, [], "Italian"⟩

/-- A listing page with no anchors at all (so zero matching links). -/
def fwEmptyPage : FoodWine.Page := ⟨[]⟩

/-- A listing page with one recipe link and no next-page affordance. -/
def fwSinglePage : FoodWine.Page :=
  ⟨[⟨some "https://www.foodandwine.com/recipes/pasta", none, none, none⟩]⟩

/-! ### Claim theorems -/

/-- **C1.** Under the retry logic with `MAX_RETRIES = 3`, base delay 2 and
backoff factor 2 (the sleep is `RETRY_BACKOFF ** attempt`, i.e.
`2 * 2^(attempt-1)`): if attempts 1 and 2 fail transiently and attempt 3
succeeds, exactly the two backoff waits `[2, 4]` occur across exactly 3
attempts — in both the structured (serious-eats) and the heuristic
(lidia) pipeline; and a permanent first outcome (an exception whose
message marks it 404/Not-Found in the structured pipeline, an HTTP 404
status in the heuristic one) yields exactly one attempt and zero waits. -/
theorem retry_backoff_sequence :
    (∀ (α : Type) (oc : Nat → SeriousEats.Outcome α) (r : α) (m1 m2 : String),
      oc 1 = .exn m1 → SeriousEats.permanentMsg m1 = false →
      oc 2 = .exn m2 → SeriousEats.permanentMsg m2 = false →
      oc 3 = .ok r →
      SeriousEats.scrape_recipe oc 1 = ⟨some r, [2, 4], 3⟩) ∧
    (∀ (α : Type) (oc : Nat → SeriousEats.Outcome α) (m : String),
      oc 1 = .exn m → SeriousEats.permanentMsg m = true →
      SeriousEats.scrape_recipe oc 1 = ⟨none, [], 1⟩) ∧
    (∀ (f : Nat → Lidia.Fetch) (url m1 m2 : String) (page : Lidia.LidiaPage)
        (raw : Lidia.RawRecipe),
      f 1 = .exn m1 → f 2 = .exn m2 → f 3 = .resp 200 page →
      Lidia.parse_page url page = some raw →
      Lidia.scrape_recipe f url 1 = ⟨some raw, [2, 4], 3⟩) ∧
    (∀ (f : Nat → Lidia.Fetch) (url : String) (page : Lidia.LidiaPage),
      f 1 = .resp 404 page →
      Lidia.scrape_recipe f url 1 = ⟨none, [], 1⟩) := by
  refine ⟨?_, ?_, ?_, ?_⟩
  · intro α oc r m1 m2 h1 p1 h2 p2 h3
    simp [SeriousEats.scrape_recipe, SeriousEats.scrape_recipe_go, h1, h2, h3, p1, p2,
      MAX_RETRIES, RETRY_BACKOFF]
  · intro α oc m h1 hp
    simp [SeriousEats.scrape_recipe, SeriousEats.scrape_recipe_go, h1, hp, MAX_RETRIES]
  · intro f url m1 m2 page raw h1 h2 h3 hp
    simp [Lidia.scrape_recipe, Lidia.scrape_recipe_go, h1, h2, h3, hp,
      MAX_RETRIES, RETRY_BACKOFF]
  · intro f url page h1
    simp [Lidia.scrape_recipe, Lidia.scrape_recipe_go, h1, MAX_RETRIES]

/-- **C1 witness**: concrete runs of all four scenarios. -/
theorem retry_backoff_sequence_witness :
    SeriousEats.scrape_recipe
        (fun n => if n ≤ 2 then SeriousEats.Outcome.exn "timeout" else .ok (7 : Nat)) 1 =
      ⟨some 7, [2, 4], 3⟩ ∧
    SeriousEats.scrape_recipe
        (fun _ => SeriousEats.Outcome.exn (α := Nat) "HTTP Error 404: Not Found") 1 =
      ⟨none, [], 1⟩ ∧
    Lidia.scrape_recipe
        (fun n => if n ≤ 2 then Lidia.Fetch.exn "ConnectionError" else .resp 200 rigatoniPage)
        "u" 1 = ⟨some rigatoniRaw, [2, 4], 3⟩ ∧
    Lidia.scrape_recipe (fun _ => Lidia.Fetch.resp 404 emptyLidiaPage) "u" 1 =
      ⟨none, [], 1⟩ :=
  ⟨retry_backoff_sequence.1 Nat _ 7 "timeout" "timeout" rfl (by decide) rfl (by decide) rfl,
   retry_backoff_sequence.2.1 Nat _ "HTTP Error 404: Not Found" rfl (by decide),
   retry_backoff_sequence.2.2.1 _ "u" "ConnectionError" "ConnectionError" rigatoniPage
     rigatoniRaw rfl rfl rfl (by decide),
   retry_backoff_sequence.2.2.2 _ "u" emptyLidiaPage rfl⟩

/-- **C2 counterexample.** The claim says a non-2xx status other than 404
(e.g. 500) is transient and retried up to the 3-attempt cap.  In the
heuristic pipeline (ingest-lidia-bastianich.py lines 182–184) a fetch
whose every attempt would return HTTP 500 instead returns `None` after a
single attempt, with no retry and no backoff wait. -/
theorem non404_status_not_retried_cex :
    Lidia.scrape_recipe (fun _ => Lidia.Fetch.resp 500 emptyLidiaPage) "u" 1 =
        ⟨none, [], 1⟩ ∧
      (Lidia.scrape_recipe (fun _ => Lidia.Fetch.resp 500 emptyLidiaPage) "u" 1).attempts ≠
        MAX_RETRIES := by
  constructor
  · rfl
  · decide

/-- **C2 amended.** In the structured (serious-eats) pipeline a non-2xx
status surfaces as a raised exception, and any exception whose message
lacks the "404"/"Not Found" substrings is retried up to the 3-attempt
cap (with backoff waits 2 then 4 before exhaustion).  In the heuristic
(lidia) pipeline every non-200 HTTP status — 404 and 5xx alike — causes
immediate permanent per-item failure with one attempt and no waits; only
raised exceptions are retried there. -/
theorem transient_classification_amended :
    (∀ (α : Type) (oc : Nat → SeriousEats.Outcome α) (m1 m2 m3 : String),
      oc 1 = .exn m1 → SeriousEats.permanentMsg m1 = false →
      oc 2 = .exn m2 → SeriousEats.permanentMsg m2 = false →
      oc 3 = .exn m3 → SeriousEats.permanentMsg m3 = false →
      SeriousEats.scrape_recipe oc 1 = ⟨none, [2, 4], 3⟩) ∧
    (∀ (f : Nat → Lidia.Fetch) (url : String) (status : Nat) (page : Lidia.LidiaPage),
      f 1 = .resp status page → status ≠ 200 →
      Lidia.scrape_recipe f url 1 = ⟨none, [], 1⟩) := by
  constructor
  · intro α oc m1 m2 m3 h1 p1 h2 p2 h3 p3
    simp [SeriousEats.scrape_recipe, SeriousEats.scrape_recipe_go, h1, h2, h3, p1, p2, p3,
      MAX_RETRIES, RETRY_BACKOFF]
  · intro f url status page h1 hs
    simp [Lidia.scrape_recipe, Lidia.scrape_recipe_go, h1, hs, MAX_RETRIES]

/-- **C2 amended witness**: a 500-message exception stream is retried to
exhaustion in the structured pipeline; a 503 status fails at once in the
heuristic one. -/
theorem transient_classification_amended_witness :
    SeriousEats.scrape_recipe
        (fun _ => SeriousEats.Outcome.exn (α := Nat)
          "500 Server Error: Internal Server Error") 1 = ⟨none, [2, 4], 3⟩ ∧
    Lidia.scrape_recipe (fun _ => Lidia.Fetch.resp 503 emptyLidiaPage) "u" 1 =
      ⟨none, [], 1⟩ :=
  ⟨transient_classification_amended.1 Nat _
      "500 Server Error: Internal Server Error" "500 Server Error: Internal Server Error"
      "500 Server Error: Internal Server Error"
      rfl (by decide) rfl (by decide) rfl (by decide),
   transient_classification_amended.2 _ "u" 503 emptyLidiaPage rfl (by decide)⟩

/-- **C3 counterexample.** The claim says the retry logic is an explicit
loop whose call-stack depth is constant.  Both scripts instead retry via
`return scrape_recipe(..., attempt + 1)` — a self-call that adds a stack
frame per attempt (Python performs no tail-call elimination), so the
nested-call depth (`attempts`) is 3 for an all-transient run and 1 for a
first-try success under the same `MAX_RETRIES`: not constant. -/
theorem retry_stack_depth_cex :
    (SeriousEats.scrape_recipe (fun _ => SeriousEats.Outcome.exn (α := Nat) "boom") 1).attempts
        = 3 ∧
    (SeriousEats.scrape_recipe (fun _ => SeriousEats.Outcome.ok (0 : Nat)) 1).attempts = 1 ∧
    (SeriousEats.scrape_recipe (fun _ => SeriousEats.Outcome.exn (α := Nat) "boom") 1).attempts ≠
      (SeriousEats.scrape_recipe (fun _ => SeriousEats.Outcome.ok (0 : Nat)) 1).attempts :=
  ⟨rfl, rfl, by decide⟩

/-- **C3 amended.** The retry mechanism is bounded self-recursion
carrying an attempt counter: the call-stack depth consumed equals the
number of attempts made, which grows with the transient failures
observed but never exceeds `MAX_RETRIES` — in both pipelines. -/
theorem retry_depth_bounded_amended :
    (∀ (α : Type) (oc : Nat → SeriousEats.Outcome α),
      1 ≤ (SeriousEats.scrape_recipe oc 1).attempts ∧
        (SeriousEats.scrape_recipe oc 1).attempts ≤ MAX_RETRIES) ∧
    (∀ (f : Nat → Lidia.Fetch) (url : String),
      1 ≤ (Lidia.scrape_recipe f url 1).attempts ∧
        (Lidia.scrape_recipe f url 1).attempts ≤ MAX_RETRIES) := by
  constructor
  · intro α oc
    have e : SeriousEats.scrape_recipe oc 1 = SeriousEats.scrape_recipe_go oc 1 2 := rfl
    have h := se_go_attempts_bound oc 2 1
    rw [e]
    refine ⟨h.1, ?_⟩
    have h2 := h.2
    simp only [MAX_RETRIES]
    omega
  · intro f url
    have e : Lidia.scrape_recipe f url 1 = Lidia.scrape_recipe_go f url 1 2 := rfl
    have h := lidia_go_attempts_bound f url 2 1
    rw [e]
    refine ⟨h.1, ?_⟩
    have h2 := h.2
    simp only [MAX_RETRIES]
    omega

/-- **C4.** Pagination termination of `extract_recipe_urls`: from any
page of the walk whose fetched content yields zero matching recipe
links, exactly that one page is fetched and the walk stops; and when
page 1 yields matching links but exposes no next-page affordance
(no `rel="next"` anchor, no anchor with string "Next", no anchor whose
CSS class contains "next" case-insensitively), the whole walk fetches
exactly page 1. -/
theorem pagination_termination :
    (∀ (fetches : Nat → FoodWine.PageFetch) (rem page_num : Nat) (acc : List String)
        (page : FoodWine.Page),
      fetches page_num = .ok page →
      FoodWine.page_links page = [] →
      (FoodWine.extract_go fetches (rem + 1) page_num acc).pagesFetched = 1) ∧
    (∀ (fetches : Nat → FoodWine.PageFetch) (page : FoodWine.Page),
      fetches 1 = .ok page →
      FoodWine.page_links page ≠ [] →
      FoodWine.has_next_page page = false →
      (FoodWine.extract_recipe_urls fetches).pagesFetched = 1) := by
  constructor
  · intro fetches rem page_num acc page hf hl
    rw [FoodWine.extract_go]
    simp [hf, hl]
  · intro fetches page hf hl hn
    have h10 : (10 : Nat) = 9 + 1 := rfl
    rw [FoodWine.extract_recipe_urls]
    rw [h10, FoodWine.extract_go]
    simp [hf, hl, hn, List.isEmpty_iff]

/-- **C4 witness**: a run over anchor-free pages stops at its first page;
a run whose page 1 has one recipe link and no pagination affordance
fetches exactly page 1. -/
theorem pagination_termination_witness :
    (FoodWine.extract_go (fun _ => .ok fwEmptyPage) 10 1 []).pagesFetched = 1 ∧
    (FoodWine.extract_recipe_urls (fun _ => .ok fwSinglePage)).pagesFetched = 1 :=
  ⟨pagination_termination.1 (fun _ => .ok fwEmptyPage) 9 1 [] fwEmptyPage rfl (by decide),
   pagination_termination.2 (fun _ => .ok fwSinglePage) fwSinglePage rfl (by decide)
     (by decide)⟩

/-- **C5.** Both validators evaluate every quality rule and report every
failing rule's issue: for any transformed record (all other fields
arbitrary), an empty ingredients list puts "No ingredients" in the issue
list, and non-empty instructions shorter than 50 characters put the
too-short issue there ("Instructions too short" in the heuristic
pipeline, "Instructions too short (< 50 chars)" — an extension of the
same phrase — in the structured pipeline). -/
theorem validator_reports_all_failures :
    (∀ r : Lidia.Transformed, r.ingredients = [] →
      "No ingredients" ∈ (Lidia.validate_recipe r).2) ∧
    (∀ r : Lidia.Transformed, r.instructions ≠ "" → r.instructions.length < 50 →
      "Instructions too short" ∈ (Lidia.validate_recipe r).2) ∧
    (∀ r : SeriousEats.Transformed, r.ingredients = [] →
      "No ingredients" ∈ (SeriousEats.validate_recipe r).2) ∧
    (∀ r : SeriousEats.Transformed, r.instructions ≠ "" → r.instructions.length < 50 →
      "Instructions too short (< 50 chars)" ∈ (SeriousEats.validate_recipe r).2) ∧
    listStartsWith "Instructions too short".data
      "Instructions too short (< 50 chars)".data = true := by
  refine ⟨?_, ?_, ?_, ?_, by decide⟩
  · intro r h
    simp only [Lidia.validate_recipe, h]
    repeat' split
    all_goals simp_all [List.mem_append]
  · intro r h hlen
    have hb : (r.instructions == "") = false := by simpa using h
    simp only [Lidia.validate_recipe, hb]
    repeat' split
    all_goals simp_all [List.mem_append]
  · intro r h
    simp only [SeriousEats.validate_recipe, h]
    repeat' split
    all_goals simp_all [List.mem_append]
  · intro r h hlen
    have hb : (r.instructions == "") = false := by simpa using h
    simp only [SeriousEats.validate_recipe, hb]
    repeat' split
    all_goals simp_all [List.mem_append]

/-- **C5 witness**: a record failing both rules at once gets both issues
reported (no short-circuiting), in both validators. -/
theorem validator_reports_all_failures_witness :
    "No ingredients" ∈
        (Lidia.validate_recipe ⟨"A", none, [], "stir", none, "Italian", [], [], "u"⟩).2 ∧
    "Instructions too short" ∈
        (Lidia.validate_recipe ⟨"A", none, [], "stir", none, "Italian", [], [], "u"⟩).2 ∧
    "No ingredients" ∈
        (SeriousEats.validate_recipe
          ⟨"B", none, [], "mix", none, none, none, none, [], [], "v"⟩).2 ∧
    "Instructions too short (< 50 chars)" ∈
        (SeriousEats.validate_recipe
          ⟨"B", none, [], "mix", none, none, none, none, [], [], "v"⟩).2 :=
  ⟨validator_reports_all_failures.1 _ rfl,
   validator_reports_all_failures.2.1 _ (by decide) (by decide),
   validator_reports_all_failures.2.2.1 _ rfl,
   validator_reports_all_failures.2.2.2.1 _ (by decide) (by decide)⟩

/-- **C6.** The transform+validate stage drops nothing: in both `main`
loops the persisted transformed list is exactly the map of the raw list
— one output record per raw record, in order — and a record failing
validation is persisted with its issue list attached inline
(`validation_issues = some issues`) instead of being excluded. -/
theorem validation_never_drops_records :
    (∀ raws : List SeriousEats.RawRecipe,
      (SeriousEats.process_loop raws).1 =
          raws.map (fun raw =>
            let t := SeriousEats.transform_to_schema raw
            let v := SeriousEats.validate_recipe t
            ⟨t, if v.1 then none else some v.2⟩) ∧
        (SeriousEats.process_loop raws).1.length = raws.length) ∧
    (∀ raws : List Lidia.RawRecipe,
      (Lidia.process_loop raws).1 =
          raws.map (fun raw =>
            let t := Lidia.transform_to_schema raw
            let v := Lidia.validate_recipe t
            ⟨t, if v.1 then none else some v.2⟩) ∧
        (Lidia.process_loop raws).1.length = raws.length) := by
  constructor
  · intro raws
    have h := foldl_out_fst
      (fun acc raw =>
        let transformed := SeriousEats.transform_to_schema raw
        let v := SeriousEats.validate_recipe transformed
        if v.1 then
          (acc.1 ++ [⟨transformed, none⟩], acc.2)
        else
          (acc.1 ++ [⟨transformed, some v.2⟩],
           acc.2 ++ [(transformed.name, transformed.source, v.2)]))
      (fun raw =>
        let t := SeriousEats.transform_to_schema raw
        let v := SeriousEats.validate_recipe t
        ⟨t, if v.1 then none else some v.2⟩)
      (by
        intro acc raw
        by_cases hv : (SeriousEats.validate_recipe (SeriousEats.transform_to_schema raw)).1
        · simp [hv]
        · simp [hv])
      raws ([], [])
    have he : (SeriousEats.process_loop raws).1 =
        raws.map (fun raw =>
          let t := SeriousEats.transform_to_schema raw
          let v := SeriousEats.validate_recipe t
          ⟨t, if v.1 then none else some v.2⟩) := by
      simpa [SeriousEats.process_loop] using h
    exact ⟨he, by rw [he, List.length_map]⟩
  · intro raws
    have h := foldl_out_fst
      (fun acc raw =>
        let transformed := Lidia.transform_to_schema raw
        let v := Lidia.validate_recipe transformed
        if v.1 then
          (acc.1 ++ [⟨transformed, none⟩], acc.2)
        else
          (acc.1 ++ [⟨transformed, some v.2⟩],
           acc.2 ++ [(transformed.name, transformed.source, v.2)]))
      (fun raw =>
        let t := Lidia.transform_to_schema raw
        let v := Lidia.validate_recipe t
        ⟨t, if v.1 then none else some v.2⟩)
      (by
        intro acc raw
        by_cases hv : (Lidia.validate_recipe (Lidia.transform_to_schema raw)).1
        · simp [hv]
        · simp [hv])
      raws ([], [])
    have he : (Lidia.process_loop raws).1 =
        raws.map (fun raw =>
          let t := Lidia.transform_to_schema raw
          let v := Lidia.validate_recipe t
          ⟨t, if v.1 then none else some v.2⟩) := by
      simpa [Lidia.process_loop] using h
    exact ⟨he, by rw [he, List.length_map]⟩

/-- **C7.** The process exit status is 0 exactly when the computed fetch
success rate (successes over attempted URLs) meets or exceeds the
source's threshold — 90 for the structured source, 80 for the heuristic
one — and 1 otherwise: in particular 1 when the URL file is absent or
malformed, and 1 when no URLs were attempted (rate treated as 0). -/
theorem exit_status_threshold :
    SeriousEats.main_exit .missing = 1 ∧
    SeriousEats.main_exit .malformed = 1 ∧
    (∀ results : List Bool,
      SeriousEats.main_exit (.loaded results) = 0 ↔ success_rate results ≥ 90) ∧
    (∀ results : List Bool,
      Lidia.main_exit results = 0 ↔ success_rate results ≥ 80) ∧
    success_rate [] = 0 ∧
    SeriousEats.main_exit (.loaded []) = 1 ∧
    Lidia.main_exit [] = 1 := by
  refine ⟨rfl, rfl, ?_, ?_, ?_, ?_, ?_⟩
  · intro results
    by_cases h : success_rate results ≥ 90 <;> simp [SeriousEats.main_exit, h]
  · intro results
    by_cases h : success_rate results ≥ 80 <;> simp [Lidia.main_exit, h]
  · simp [success_rate]
  · simp [SeriousEats.main_exit, success_rate]
  · simp [Lidia.main_exit, success_rate]

/-- **C8 counterexample.** The claim says a clean paragraph of exactly 20
characters is kept.  The code keeps a paragraph only when
`len(text) > 20` (ingest-lidia-bastianich.py line 227), so the clean
20-character paragraph "Boil pasta al dente." is dropped and the joined
instruction text is empty. -/
theorem instruction_paragraph_20_chars_cex :
    pyStrip "Boil pasta al dente." = "Boil pasta al dente." ∧
    "Boil pasta al dente.".length = 20 ∧
    (Lidia.skip_patterns.all fun pat =>
      !(strIn pat (lowerStr "Boil pasta al dente."))) = true ∧
    Lidia.instruction_parts ["Boil pasta al dente."] = [] ∧
    Lidia.joined_instructions ["Boil pasta al dente."] = "" :=
  ⟨rfl, rfl, by decide, rfl, rfl⟩

/-- **C8 amended.** A paragraph following the Directions heading is kept
iff its stripped text is non-empty, contains no boilerplate marker, and
is strictly longer than 20 characters (so exactly-20-character
paragraphs are dropped); the survivors keep their original order and are
joined with a blank-line separator. -/
theorem instruction_paragraph_filter_amended :
    ∀ paragraphs : List String,
      Lidia.instruction_parts paragraphs =
          (paragraphs.map pyStrip).filter (fun text =>
            !(text == "") &&
            !(Lidia.skip_patterns.any fun pat => strIn pat (lowerStr text)) &&
            decide (20 < text.length)) ∧
        Lidia.joined_instructions paragraphs =
          String.intercalate "\n\n"
            ((paragraphs.map pyStrip).filter (fun text =>
              !(text == "") &&
              !(Lidia.skip_patterns.any fun pat => strIn pat (lowerStr text)) &&
              decide (20 < text.length))) := by
  intro paragraphs
  have h := foldl_filter_append pyStrip
    (fun text =>
      !(text == "") &&
      !(Lidia.skip_patterns.any fun pat => strIn pat (lowerStr text)) &&
      decide (20 < text.length)) paragraphs []
  have he : Lidia.instruction_parts paragraphs =
      (paragraphs.map pyStrip).filter (fun text =>
        !(text == "") &&
        !(Lidia.skip_patterns.any fun pat => strIn pat (lowerStr text)) &&
        decide (20 < text.length)) := by
    simpa [Lidia.instruction_parts] using h
  exact ⟨he, by rw [Lidia.joined_instructions, he]⟩

/-- **C9 counterexample.** The claim says the rate-limit delay runs once
after each item fetch including the last item of a run.  Both item loops
guard the sleep with `if i < len(recipe_urls)` (serious-eats line 355,
lidia line 426), so a one-item run performs its fetch and zero waits. -/
theorem rate_wait_last_item_cex :
    item_loop_events 1 = [RunEvent.itemFetch 1] ∧
    countWaits (item_loop_events 1) = 0 :=
  ⟨rfl, rfl⟩

/-- **C9 amended.** The rate limiter never runs before the first request
(every trace starts with a fetch); in the item loops it runs exactly
once between consecutive items — `n - 1` waits for `n` items, none after
the last; in the lidia discovery loop it runs exactly once after every
category-page fetch, the last included (waits = page fetches); and in
the Food & Wine pagination walk the wait count is `pagesFetched - 1`
when the walk ends on a stop signal and at most `pagesFetched` overall. -/
theorem rate_limiter_schedule_amended :
    (∀ n : Nat, countWaits (item_loop_events n) = n - 1) ∧
    (∀ n : Nat, (item_loop_events n).head? =
      if n = 0 then none else some (RunEvent.itemFetch 1)) ∧
    (∀ (counts : List Nat) (i acc target : Nat),
      countWaits (discovery_events counts i acc target) =
        countPageFetches (discovery_events counts i acc target)) ∧
    (∀ (counts : List Nat) (i acc target : Nat),
      (discovery_events counts i acc target).head? =
        if counts.isEmpty then none else some (RunEvent.pageFetch i)) ∧
    (∀ (fetches : Nat → FoodWine.PageFetch) (rem page_num : Nat) (acc : List String),
      (FoodWine.extract_go fetches rem page_num acc).waitCount + 1 =
          (FoodWine.extract_go fetches rem page_num acc).pagesFetched ∨
        (FoodWine.extract_go fetches rem page_num acc).waitCount =
          (FoodWine.extract_go fetches rem page_num acc).pagesFetched) := by
  refine ⟨?_, ?_, ?_, ?_, ?_⟩
  · intro n
    cases n with
    | zero => simp [item_loop_events, countWaits]
    | succ m =>
      rw [item_loop_events, countWaits_flatMap, List.range_succ, List.map_append]
      have h1 : (List.range m).map
          (fun k => countWaits (RunEvent.itemFetch (k + 1) ::
            (if k + 1 < m + 1 then [RunEvent.rateWait RATE_LIMIT_SECONDS] else []))) =
          (List.range m).map (fun _ => 1) := by
        apply List.map_congr_left
        intro k hk
        have : k < m := List.mem_range.mp hk
        have hlt : k + 1 < m + 1 := by omega
        simp [hlt, countWaits]
      rw [h1]
      simp [countWaits, List.map_const]
  · intro n
    cases n with
    | zero => simp [item_loop_events]
    | succ m =>
      rw [item_loop_events]
      have h : List.range (m + 1) = 0 :: List.range' 1 m := by
        rw [List.range_eq_range']
        rfl
      rw [h]
      simp [List.flatMap_cons]
  · intro counts
    induction counts with
    | nil => intro i acc target; simp [discovery_events, countWaits, countPageFetches]
    | cons c rest ih =>
      intro i acc target
      rw [discovery_events]
      by_cases hb : acc + c ≥ target
      · simp [hb, countWaits, countPageFetches]
      · simp only [hb, if_neg, not_false_iff, if_false]
        simp [countWaits, countPageFetches] at ih ⊢
        exact ih (i + 1) (acc + c) target
  · intro counts i acc target
    cases counts with
    | nil => simp [discovery_events]
    | cons c rest => rw [discovery_events]; rfl
  · exact fun fetches => fw_waits_le_pages fetches

/-- **C10.** In the structured-extractor pipeline, permanence is decided
purely by substring match on the raised exception's message
(ingest-serious-eats-top50.py line 168): whatever the exception's type
or actual cause, if its message contains "404" or "Not Found" the item
fails immediately — one attempt, no retry, no backoff wait. -/
theorem permanence_by_message_substring :
    ∀ (α : Type) (oc : Nat → SeriousEats.Outcome α) (msg : String),
      oc 1 = .exn msg →
      (strIn "404" msg = true ∨ strIn "Not Found" msg = true) →
      SeriousEats.scrape_recipe oc 1 = ⟨none, [], 1⟩ := by
  intro α oc msg h1 hsub
  have hp : SeriousEats.permanentMsg msg = true := by
    rcases hsub with h | h <;> simp [SeriousEats.permanentMsg, h]
  simp [SeriousEats.scrape_recipe, SeriousEats.scrape_recipe_go, h1, hp, MAX_RETRIES]

/-- **C10 witness**: a timeout-style (transient-cause) message that
merely mentions "404" is treated as permanent: one attempt, no waits —
even though the remaining attempts would have succeeded. -/
theorem permanence_by_message_substring_witness :
    SeriousEats.scrape_recipe
      (fun n =>
        if n = 1 then SeriousEats.Outcome.exn "Read timed out after 404 ms"
        else .ok (5 : Nat)) 1 = ⟨none, [], 1⟩ :=
  permanence_by_message_substring Nat _ "Read timed out after 404 ms" rfl
    (Or.inl (by decide))
